import Mathlib

/-!
Shallow embedding of the core of the DebugDrivePlayback python backend:
the cache layer (`python_backend/core/cache_handler.py`), the signal
validator (`python_backend/core/signal_validation.py`), the performance
monitor (`python_backend/core/performance_monitor.py`), the orchestrator
(`python_backend/core/plot_manager.py`) and the nearest-sample lookup of
the data-source plugins (`python_backend/plugins/base_plugin.py`).

Python dictionaries (`dict` / `OrderedDict`) are modelled as association
lists in insertion order; for `OrderedDict` the head of the list is the
least-recently-used end (`popitem(last=False)` pops the head,
`move_to_end` moves an entry to the tail, fresh insertions append at the
tail).  Wall-clock readings (`time.time()`, `time.perf_counter()`) are
passed in explicitly as rational numbers.  Python numeric values are
modelled by rationals; `int` counters by `Nat`/`Int`.
-/

set_option linter.unusedSectionVars false
set_option linter.unusedVariables false

namespace DebugPlayer

/-! ### Association-list primitives (python dict operations) -/

/-- Lookup of a key in an association list, first occurrence wins
(python `d[k]` / `d.get(k)` on a dict, which has unique keys). -/
def lookupKV {K A : Type} [DecidableEq K] (k : K) : List (K × A) → Option A
  | [] => none
  | (k₁, a) :: t => if k₁ = k then some a else lookupKV k t

/-- Removal of the first occurrence of a key (python `del d[k]` /
`d.pop(k)`). -/
def eraseFirst {K A : Type} [DecidableEq K] (k : K) : List (K × A) → List (K × A)
  | [] => []
  | (k₁, a) :: t => if k₁ = k then t else (k₁, a) :: eraseFirst k t

/-- Insert-or-replace (python `d[k] = v`): an existing key keeps its
position, a new key is appended at the end, as in a python dict. -/
def insertKV {K A : Type} [DecidableEq K] (k : K) (v : A) : List (K × A) → List (K × A)
  | [] => [(k, v)]
  | (k₁, a) :: t => if k₁ = k then (k, v) :: t else (k₁, a) :: insertKV k v t

/-- The keys of an association list. -/
def keysOf {K A : Type} (l : List (K × A)) : List K := l.map Prod.fst

/-- Well-formedness of a python-dict model: no duplicate keys. -/
def NodupKeys {K A : Type} (l : List (K × A)) : Prop := (keysOf l).Nodup

instance {K A : Type} [DecidableEq K] (l : List (K × A)) : Decidable (NodupKeys l) := by
  unfold NodupKeys; infer_instance

/-- Add an element to a list if absent (python `set.add`, modelling a
python set as a duplicate-free list). -/
def addIfAbsent {A : Type} [DecidableEq A] (x : A) (l : List A) : List A :=
  if x ∈ l then l else l ++ [x]

/-! ### Cache handler (`core/cache_handler.py`)

`CacheHandler` is generic in the key type `K` (the source uses md5
hex-digest strings produced by `create_key`; we key the model by the data
the digest is computed from, since md5 is a fixed deterministic function)
and in the value type `V` together with a size estimate `sz : V → Nat`
standing for `_calculate_size` (which is a deterministic function of the
value: `pickle.dumps` length with a structural fallback). -/

/-- `CacheEntry` dataclass of `cache_handler.py`. -/
structure CacheEntry (V : Type) where
  value : V
  timestamp : ℚ
  ttl : Option ℚ
  access_count : Nat
  size_bytes : Nat
deriving Repr, DecidableEq

/-- State of a `CacheHandler`: the ordered dict (head = least recently
used), the running byte total and the statistics counters. -/
structure CacheHandler (K V : Type) where
  max_size_bytes : Nat
  default_ttl : ℚ
  cache : List (K × CacheEntry V)
  current_size : Int
  hits : Nat
  misses : Nat
  evictions : Nat
  expired : Nat
deriving Repr, DecidableEq

/-- `CacheHandler.__init__(max_size_mb, default_ttl)`. -/
def CacheHandler.init (K V : Type) (max_size_mb : Nat) (default_ttl : ℚ) : CacheHandler K V :=
  { max_size_bytes := max_size_mb * 1024 * 1024
    default_ttl := default_ttl
    cache := []
    current_size := 0
    hits := 0
    misses := 0
    evictions := 0
    expired := 0 }

variable {K V : Type} [DecidableEq K]

/-- `CacheHandler.delete(key)`: pop the entry and subtract its recorded
size from `current_size`. -/
def CacheHandler.delete (c : CacheHandler K V) (key : K) : Bool × CacheHandler K V :=
  match lookupKV key c.cache with
  | some e =>
      (true, { c with cache := eraseFirst key c.cache
                      current_size := c.current_size - e.size_bytes })
  | none => (false, c)

/-- The expiry test of `get` / `cleanup_expired`:
`entry.ttl is not None and time.time() - entry.timestamp > entry.ttl`. -/
def pyExpired {V : Type} (e : CacheEntry V) (now : ℚ) : Bool :=
  match e.ttl with
  | some t => decide (now - e.timestamp > t)
  | none => false

/-- `CacheHandler.get(key)` at wall-clock time `now`: miss on absence,
lazy expiry (delete, count `expired` and `misses`), otherwise bump the
access count, move the entry to the most-recently-used end and count a
hit. -/
def CacheHandler.get (c : CacheHandler K V) (now : ℚ) (key : K) :
    Option V × CacheHandler K V :=
  match lookupKV key c.cache with
  | none => (none, { c with misses := c.misses + 1 })
  | some e =>
      if pyExpired e now then
        let c₁ := (c.delete key).2
        (none, { c₁ with expired := c₁.expired + 1, misses := c₁.misses + 1 })
      else
        (some e.value,
         { c with
            cache := eraseFirst key c.cache ++
              [(key, { e with access_count := e.access_count + 1 })]
            hits := c.hits + 1 })

/-- `CacheHandler._evict_lru()`: pop the least-recently-used entry
(`popitem(last=False)`), subtract its size, count an eviction. -/
def CacheHandler.evictLRU (c : CacheHandler K V) : CacheHandler K V :=
  match c.cache with
  | [] => c
  | (_, e) :: rest =>
      { c with cache := rest
               current_size := c.current_size - e.size_bytes
               evictions := c.evictions + 1 }

/-- Iterations of the eviction loop of `CacheHandler.set`
(`while current_size + size_bytes > max_size_bytes and len(cache) > 0:
_evict_lru()`), structurally bounded by a fuel counter.  Each iteration
requires a non-empty dict and removes one entry, so any fuel at least
the entry count makes this the exact loop. -/
def CacheHandler.makeRoomGo (size_bytes : Nat) : Nat → CacheHandler K V → CacheHandler K V
  | 0, c => c
  | fuel + 1, c =>
      if (c.max_size_bytes : Int) < c.current_size + size_bytes ∧ c.cache.isEmpty = false then
        CacheHandler.makeRoomGo size_bytes fuel c.evictLRU
      else c

/-- The eviction loop of `CacheHandler.set`, run with enough fuel
(the current entry count) to terminate exactly like the source loop. -/
def CacheHandler.makeRoom (c : CacheHandler K V) (size_bytes : Nat) : CacheHandler K V :=
  CacheHandler.makeRoomGo size_bytes c.cache.length c

/-- Python truthiness applied to the ttl argument of `set`:
`ttl or self.default_ttl` (both `None` and `0` select the default). -/
def pyTtlOr (ttl : Option ℚ) (d : ℚ) : ℚ :=
  match ttl with
  | none => d
  | some t => if t = 0 then d else t

/-- `CacheHandler.set(key, value, ttl)` at wall-clock time `now` with
size estimate `sz`: reject an oversized value, delete an existing entry
for the key, evict until the new entry fits, then append it with ttl
`ttl or default_ttl`. -/
def CacheHandler.set (sz : V → Nat) (c : CacheHandler K V) (now : ℚ) (key : K)
    (value : V) (ttl : Option ℚ) : Bool × CacheHandler K V :=
  let size_bytes := sz value
  if c.max_size_bytes < size_bytes then (false, c)
  else
    let c₁ := if (lookupKV key c.cache).isSome then (c.delete key).2 else c
    let c₂ := c₁.makeRoom size_bytes
    (true,
     { c₂ with
        cache := c₂.cache ++
          [(key, { value := value, timestamp := now
                   ttl := some (pyTtlOr ttl c.default_ttl)
                   access_count := 0, size_bytes := size_bytes })]
        current_size := c₂.current_size + size_bytes })

/-- `CacheHandler.clear()`: drop every entry and reset the statistics. -/
def CacheHandler.clear (c : CacheHandler K V) : Bool × CacheHandler K V :=
  (true,
   { c with cache := [], current_size := 0
            hits := 0, misses := 0, evictions := 0, expired := 0 })

/-- `CacheHandler.cleanup_expired()` at wall-clock time `now`: collect
the expired keys, delete each and count it, return how many. -/
def CacheHandler.cleanup_expired (c : CacheHandler K V) (now : ℚ) :
    Nat × CacheHandler K V :=
  let expired_keys := (c.cache.filter (fun kv => pyExpired kv.2 now)).map Prod.fst
  let c₁ := expired_keys.foldl
    (fun acc k =>
      let acc₁ := (acc.delete k).2
      { acc₁ with expired := acc₁.expired + 1 }) c
  (expired_keys.length, c₁)

/-! ### The cache size invariant (claim C2 machinery) -/

/-- Total of the recorded entry sizes over the live entries. -/
def sumSizes {K V : Type} (l : List (K × CacheEntry V)) : Nat :=
  (l.map (fun kv => kv.2.size_bytes)).sum

/-- The invariant of §4.1: `current_size` equals the sum of the live
entry sizes and never exceeds the byte budget. -/
def CacheInv {K V : Type} (c : CacheHandler K V) : Prop :=
  c.current_size = (sumSizes c.cache : Int) ∧
    c.current_size ≤ (c.max_size_bytes : Int)

/-- One cache operation together with the wall-clock time at which it
runs (for the operations that read the clock). -/
inductive CacheOp (K V : Type) where
  | opSet (now : ℚ) (key : K) (value : V) (ttl : Option ℚ)
  | opGet (now : ℚ) (key : K)
  | opDelete (key : K)
  | opClear
  | opCleanup (now : ℚ)

/-- Apply one operation, discarding its return value. -/
def CacheHandler.applyOp (sz : V → Nat) (c : CacheHandler K V) :
    CacheOp K V → CacheHandler K V
  | .opSet now key value ttl => (c.set sz now key value ttl).2
  | .opGet now key => (c.get now key).2
  | .opDelete key => (c.delete key).2
  | .opClear => c.clear.2
  | .opCleanup now => (c.cleanup_expired now).2

/-- Run a sequence of operations from a state. -/
def CacheHandler.runOps (sz : V → Nat) (c : CacheHandler K V)
    (ops : List (CacheOp K V)) : CacheHandler K V :=
  ops.foldl (fun acc op => acc.applyOp sz op) c

theorem sumSizes_cons {K V : Type} (kv : K × CacheEntry V) (l : List (K × CacheEntry V)) :
    sumSizes (kv :: l) = kv.2.size_bytes + sumSizes l := by
  simp [sumSizes]

theorem sumSizes_append {K V : Type} (l₁ l₂ : List (K × CacheEntry V)) :
    sumSizes (l₁ ++ l₂) = sumSizes l₁ + sumSizes l₂ := by
  simp [sumSizes]

theorem sumSizes_eraseFirst {k : K} {l : List (K × CacheEntry V)} {e : CacheEntry V}
    (h : lookupKV k l = some e) :
    sumSizes l = e.size_bytes + sumSizes (eraseFirst k l) := by
  induction l with
  | nil => simp [lookupKV] at h
  | cons hd tl ih =>
    obtain ⟨k₁, a⟩ := hd
    by_cases hk : k₁ = k
    · simp only [lookupKV, if_pos hk, Option.some.injEq] at h
      subst h
      simp [eraseFirst, hk, sumSizes_cons]
    · simp only [lookupKV, if_neg hk] at h
      simp [eraseFirst, hk, sumSizes_cons, ih h]
      ring

theorem CacheHandler.delete_inv {c : CacheHandler K V} (key : K) (h : CacheInv c) :
    CacheInv (c.delete key).2 := by
  obtain ⟨h1, h2⟩ := h
  unfold CacheHandler.delete
  cases hl : lookupKV key c.cache with
  | none => exact ⟨h1, h2⟩
  | some e =>
    refine ⟨?_, ?_⟩
    · simp only
      rw [h1, sumSizes_eraseFirst hl]
      push_cast
      ring
    · simp only
      have : (0 : Int) ≤ e.size_bytes := Int.ofNat_nonneg _
      omega

theorem CacheHandler.get_inv {c : CacheHandler K V} (now : ℚ) (key : K) (h : CacheInv c) :
    CacheInv (c.get now key).2 := by
  unfold CacheHandler.get
  cases hl : lookupKV key c.cache with
  | none => exact h
  | some e =>
    dsimp only
    cases he : pyExpired e now with
    | true =>
      rw [if_pos rfl]
      exact CacheHandler.delete_inv key h
    | false =>
      rw [if_neg Bool.false_ne_true]
      obtain ⟨h1, h2⟩ := h
      refine ⟨?_, h2⟩
      show c.current_size = _
      rw [h1, sumSizes_eraseFirst hl, sumSizes_append]
      simp [sumSizes]
      ring

theorem CacheHandler.evictLRU_inv {c : CacheHandler K V} (h : CacheInv c) :
    CacheInv c.evictLRU := by
  obtain ⟨h1, h2⟩ := h
  unfold CacheHandler.evictLRU
  cases hc : c.cache with
  | nil => exact ⟨by rw [h1, hc], h2⟩
  | cons hd tl =>
    obtain ⟨k, e⟩ := hd
    rw [hc, sumSizes_cons] at h1
    refine ⟨?_, ?_⟩
    · simp only
      rw [h1]
      push_cast
      ring
    · simp only
      have : (0 : Int) ≤ e.size_bytes := Int.ofNat_nonneg _
      omega

theorem CacheHandler.evictLRU_const {c : CacheHandler K V} :
    c.evictLRU.max_size_bytes = c.max_size_bytes ∧
      c.evictLRU.default_ttl = c.default_ttl := by
  unfold CacheHandler.evictLRU
  cases c.cache with
  | nil => exact ⟨rfl, rfl⟩
  | cons hd tl => exact ⟨rfl, rfl⟩

theorem CacheHandler.makeRoomGo_const {s fuel : Nat} {c : CacheHandler K V} :
    (CacheHandler.makeRoomGo s fuel c).max_size_bytes = c.max_size_bytes ∧
      (CacheHandler.makeRoomGo s fuel c).default_ttl = c.default_ttl := by
  induction fuel generalizing c with
  | zero => exact ⟨rfl, rfl⟩
  | succ f ih =>
    simp only [CacheHandler.makeRoomGo]
    by_cases h : (c.max_size_bytes : Int) < c.current_size + s ∧ c.cache.isEmpty = false
    · rw [if_pos h]
      exact ⟨ih.1.trans CacheHandler.evictLRU_const.1,
             ih.2.trans CacheHandler.evictLRU_const.2⟩
    · rw [if_neg h]
      exact ⟨rfl, rfl⟩

theorem CacheHandler.makeRoom_const {c : CacheHandler K V} {s : Nat} :
    (c.makeRoom s).max_size_bytes = c.max_size_bytes ∧
      (c.makeRoom s).default_ttl = c.default_ttl :=
  CacheHandler.makeRoomGo_const

theorem CacheHandler.makeRoomGo_inv {s fuel : Nat} {c : CacheHandler K V}
    (h : CacheInv c) : CacheInv (CacheHandler.makeRoomGo s fuel c) := by
  induction fuel generalizing c with
  | zero => exact h
  | succ f ih =>
    simp only [CacheHandler.makeRoomGo]
    by_cases hcond : (c.max_size_bytes : Int) < c.current_size + s ∧ c.cache.isEmpty = false
    · rw [if_pos hcond]
      exact ih (CacheHandler.evictLRU_inv h)
    · rw [if_neg hcond]
      exact h

theorem CacheHandler.makeRoom_inv {c : CacheHandler K V} {s : Nat} (h : CacheInv c) :
    CacheInv (c.makeRoom s) :=
  CacheHandler.makeRoomGo_inv h

theorem CacheHandler.evictLRU_cache_length {c : CacheHandler K V} :
    c.evictLRU.cache.length = c.cache.length - 1 := by
  cases hc : c.cache with
  | nil => simp [CacheHandler.evictLRU, hc]
  | cons hd tl =>
    obtain ⟨k, e⟩ := hd
    simp [CacheHandler.evictLRU, hc]

theorem CacheHandler.makeRoomGo_fits {s fuel : Nat} {c : CacheHandler K V}
    (hf : c.cache.length ≤ fuel) :
    (CacheHandler.makeRoomGo s fuel c).current_size + s
        ≤ ((CacheHandler.makeRoomGo s fuel c).max_size_bytes : Int) ∨
      (CacheHandler.makeRoomGo s fuel c).cache = [] := by
  induction fuel generalizing c with
  | zero =>
    exact Or.inr (List.length_eq_zero.mp (Nat.le_zero.mp hf))
  | succ f ih =>
    simp only [CacheHandler.makeRoomGo]
    by_cases hcond : (c.max_size_bytes : Int) < c.current_size + s ∧ c.cache.isEmpty = false
    · rw [if_pos hcond]
      apply ih
      rw [CacheHandler.evictLRU_cache_length]
      omega
    · rw [if_neg hcond]
      rcases not_and_or.mp hcond with hlt | hne
      · exact .inl (by omega)
      · refine .inr ?_
        cases hc : c.cache with
        | nil => rfl
        | cons hd tl => rw [hc] at hne; simp at hne

theorem CacheHandler.makeRoom_fits {c : CacheHandler K V} {s : Nat} :
    (c.makeRoom s).current_size + s ≤ ((c.makeRoom s).max_size_bytes : Int) ∨
      (c.makeRoom s).cache = [] :=
  CacheHandler.makeRoomGo_fits (Nat.le_refl _)

theorem CacheHandler.makeRoomGo_noop {s fuel : Nat} {c : CacheHandler K V}
    (h : ¬ ((c.max_size_bytes : Int) < c.current_size + s ∧ c.cache.isEmpty = false)) :
    CacheHandler.makeRoomGo s fuel c = c := by
  cases fuel with
  | zero => rfl
  | succ f =>
    simp only [CacheHandler.makeRoomGo]
    rw [if_neg h]

theorem CacheHandler.makeRoom_noop {s : Nat} {c : CacheHandler K V}
    (h : ¬ ((c.max_size_bytes : Int) < c.current_size + s ∧ c.cache.isEmpty = false)) :
    c.makeRoom s = c :=
  CacheHandler.makeRoomGo_noop h

theorem CacheHandler.set_inv {c : CacheHandler K V} (sz : V → Nat) (now : ℚ)
    (key : K) (value : V) (ttl : Option ℚ) (h : CacheInv c) :
    CacheInv (c.set sz now key value ttl).2 := by
  unfold CacheHandler.set
  by_cases hbig : c.max_size_bytes < sz value
  · simp only [hbig, if_true]
    exact h
  · simp only [hbig, if_false]
    set c₁ := if (lookupKV key c.cache).isSome then (c.delete key).2 else c with hc₁
    have hinv₁ : CacheInv c₁ := by
      rw [hc₁]
      by_cases hk : (lookupKV key c.cache).isSome
      · rw [if_pos hk]
        exact CacheHandler.delete_inv key h
      · rw [if_neg hk]
        exact h
    have hmax₁ : c₁.max_size_bytes = c.max_size_bytes := by
      rw [hc₁]
      by_cases hk : (lookupKV key c.cache).isSome
      · rw [if_pos hk]
        unfold CacheHandler.delete
        cases lookupKV key c.cache with
        | none => rfl
        | some e => rfl
      · rw [if_neg hk]
    set c₂ := c₁.makeRoom (sz value) with hc₂
    have hinv₂ : CacheInv c₂ := CacheHandler.makeRoom_inv hinv₁
    have hmax₂ : c₂.max_size_bytes = c.max_size_bytes := by
      rw [hc₂, CacheHandler.makeRoom_const.1, hmax₁]
    have h1 := hinv₂.1
    have h2 := hinv₂.2
    refine ⟨?_, ?_⟩
    · show c₂.current_size + (sz value : Int) = _
      rw [h1, sumSizes_append]
      simp [sumSizes]
    · show c₂.current_size + (sz value : Int) ≤ _
      rcases CacheHandler.makeRoom_fits (c := c₁) (s := sz value) with hfit | hemp
      · rw [← hc₂] at hfit
        exact hfit
      · rw [← hc₂] at hemp
        have hz : c₂.current_size = 0 := by
          rw [h1, hemp]
          rfl
        have hle : sz value ≤ c.max_size_bytes := Nat.le_of_not_lt hbig
        rw [hz, hmax₂]
        omega

theorem CacheHandler.clear_inv {c : CacheHandler K V} : CacheInv c.clear.2 := by
  unfold CacheHandler.clear
  exact ⟨rfl, Int.ofNat_nonneg _⟩

theorem CacheHandler.cleanup_inv {c : CacheHandler K V} (now : ℚ) (h : CacheInv c) :
    CacheInv (c.cleanup_expired now).2 := by
  unfold CacheHandler.cleanup_expired
  simp only
  generalize ((c.cache.filter (fun kv => pyExpired kv.2 now)).map Prod.fst) = ks
  induction ks generalizing c with
  | nil => exact h
  | cons k ks ih =>
    rw [List.foldl_cons]
    apply ih
    have hd := CacheHandler.delete_inv (c := c) k h
    exact hd

theorem CacheHandler.applyOp_inv {c : CacheHandler K V} (sz : V → Nat)
    (op : CacheOp K V) (h : CacheInv c) : CacheInv (c.applyOp sz op) := by
  cases op with
  | opSet now key value ttl => exact CacheHandler.set_inv sz now key value ttl h
  | opGet now key => exact CacheHandler.get_inv now key h
  | opDelete key => exact CacheHandler.delete_inv key h
  | opClear => exact CacheHandler.clear_inv
  | opCleanup now => exact CacheHandler.cleanup_inv now h

theorem CacheHandler.runOps_inv {c : CacheHandler K V} (sz : V → Nat)
    (ops : List (CacheOp K V)) (h : CacheInv c) : CacheInv (c.runOps sz ops) := by
  induction ops generalizing c with
  | nil => exact h
  | cons op ops ih =>
    exact ih (CacheHandler.applyOp_inv sz op h)

theorem CacheHandler.init_inv (max_size_mb : Nat) (default_ttl : ℚ) :
    CacheInv (CacheHandler.init K V max_size_mb default_ttl) :=
  ⟨rfl, Int.ofNat_nonneg _⟩

/-! ### Key bookkeeping lemmas for the dict model -/

theorem keysOf_nil {K A : Type} : keysOf ([] : List (K × A)) = [] := rfl

theorem keysOf_cons {K A : Type} (k : K) (a : A) (l : List (K × A)) :
    keysOf ((k, a) :: l) = k :: keysOf l := rfl

theorem lookupKV_eq_none_iff {A : Type} {k : K} {l : List (K × A)} :
    lookupKV k l = none ↔ k ∉ keysOf l := by
  induction l with
  | nil => simp [lookupKV, keysOf_nil]
  | cons hd tl ih =>
    obtain ⟨k₁, a⟩ := hd
    by_cases hk : k₁ = k
    · subst hk
      simp [lookupKV, keysOf_cons]
    · have hk₂ : k ≠ k₁ := fun he => hk he.symm
      simp [lookupKV, hk, hk₂, keysOf_cons, ih]

theorem eraseFirst_sublist {A : Type} (k : K) (l : List (K × A)) :
    List.Sublist (eraseFirst k l) l := by
  induction l with
  | nil => exact List.Sublist.refl []
  | cons hd tl ih =>
    obtain ⟨k₁, a⟩ := hd
    by_cases hk : k₁ = k
    · simp only [eraseFirst, if_pos hk]
      exact List.Sublist.cons _ (List.Sublist.refl tl)
    · simp only [eraseFirst, if_neg hk]
      exact List.Sublist.cons₂ _ ih

theorem nodupKeys_of_sublist {A : Type} {l₁ l₂ : List (K × A)}
    (hs : List.Sublist l₁ l₂) (h : NodupKeys l₂) : NodupKeys l₁ :=
  List.Nodup.sublist (List.Sublist.map Prod.fst hs) h

theorem nodupKeys_eraseFirst {A : Type} {k : K} {l : List (K × A)}
    (h : NodupKeys l) : NodupKeys (eraseFirst k l) :=
  nodupKeys_of_sublist (eraseFirst_sublist k l) h

theorem nodupKeys_cons_iff {A : Type} {k : K} {a : A} {l : List (K × A)} :
    NodupKeys ((k, a) :: l) ↔ k ∉ keysOf l ∧ NodupKeys l := by
  rw [NodupKeys, keysOf_cons, List.nodup_cons]
  exact Iff.rfl

theorem not_mem_keys_eraseFirst {A : Type} {k : K} {l : List (K × A)}
    (h : NodupKeys l) : k ∉ keysOf (eraseFirst k l) := by
  induction l with
  | nil => simp [eraseFirst, keysOf_nil]
  | cons hd tl ih =>
    obtain ⟨k₁, a⟩ := hd
    have hnd := nodupKeys_cons_iff.mp h
    by_cases hk : k₁ = k
    · simp only [eraseFirst, if_pos hk]
      rw [← hk]
      exact hnd.1
    · simp only [eraseFirst, if_neg hk]
      rw [keysOf_cons]
      intro hmem
      rcases List.mem_cons.mp hmem with h₁ | h₂
      · exact hk h₁.symm
      · exact ih hnd.2 h₂

theorem lookupKV_append_right {A : Type} {k : K} {l₁ l₂ : List (K × A)}
    (h : k ∉ keysOf l₁) : lookupKV k (l₁ ++ l₂) = lookupKV k l₂ := by
  induction l₁ with
  | nil => rfl
  | cons hd tl ih =>
    obtain ⟨k₁, a⟩ := hd
    have hk : k₁ ≠ k := by
      intro he
      exact h (by simp [keysOf, he])
    have htl : k ∉ keysOf tl := by
      intro hm
      exact h (by simp [keysOf]; right; simpa [keysOf] using hm)
    simp only [List.cons_append, lookupKV, if_neg hk]
    exact ih htl

theorem lookupKV_snoc_self {A : Type} {k : K} {pre : List (K × A)} {e : A}
    (h : k ∉ keysOf pre) : lookupKV k (pre ++ [(k, e)]) = some e := by
  rw [lookupKV_append_right h]
  simp [lookupKV]

theorem eraseFirst_append_right {A : Type} {k : K} {l₁ l₂ : List (K × A)}
    (h : k ∉ keysOf l₁) : eraseFirst k (l₁ ++ l₂) = l₁ ++ eraseFirst k l₂ := by
  induction l₁ with
  | nil => rfl
  | cons hd tl ih =>
    obtain ⟨k₁, a⟩ := hd
    have hk : k₁ ≠ k := by
      intro he
      exact h (by simp [keysOf, he])
    have htl : k ∉ keysOf tl := by
      intro hm
      exact h (by simp [keysOf]; right; simpa [keysOf] using hm)
    simp only [List.cons_append, eraseFirst, if_neg hk]
    exact congrArg (List.cons (k₁, a)) (ih htl)

theorem eraseFirst_snoc_self {A : Type} {k : K} {pre : List (K × A)} {e : A}
    (h : k ∉ keysOf pre) : eraseFirst k (pre ++ [(k, e)]) = pre := by
  rw [eraseFirst_append_right h]
  simp [eraseFirst]

theorem CacheHandler.evictLRU_cache_sublist {c : CacheHandler K V} :
    List.Sublist c.evictLRU.cache c.cache := by
  cases hc : c.cache with
  | nil =>
    simp [CacheHandler.evictLRU, hc]
  | cons hd tl =>
    obtain ⟨k, e⟩ := hd
    simp only [CacheHandler.evictLRU, hc]
    exact List.Sublist.cons _ (List.Sublist.refl tl)

theorem CacheHandler.makeRoomGo_cache_sublist {s fuel : Nat} {c : CacheHandler K V} :
    List.Sublist (CacheHandler.makeRoomGo s fuel c).cache c.cache := by
  induction fuel generalizing c with
  | zero => exact List.Sublist.refl _
  | succ f ih =>
    simp only [CacheHandler.makeRoomGo]
    by_cases hcond : (c.max_size_bytes : Int) < c.current_size + s ∧ c.cache.isEmpty = false
    · rw [if_pos hcond]
      exact ih.trans CacheHandler.evictLRU_cache_sublist
    · rw [if_neg hcond]

theorem CacheHandler.makeRoom_cache_sublist {c : CacheHandler K V} {s : Nat} :
    List.Sublist (c.makeRoom s).cache c.cache :=
  CacheHandler.makeRoomGo_cache_sublist

theorem CacheHandler.delete_const {c : CacheHandler K V} {key : K} :
    (c.delete key).2.max_size_bytes = c.max_size_bytes ∧
      (c.delete key).2.default_ttl = c.default_ttl := by
  unfold CacheHandler.delete
  cases lookupKV key c.cache with
  | none => exact ⟨rfl, rfl⟩
  | some e => exact ⟨rfl, rfl⟩

/-- The intermediate state of `set` after the delete-existing step. -/
def CacheHandler.setDel (c : CacheHandler K V) (key : K) : CacheHandler K V :=
  if (lookupKV key c.cache).isSome then (c.delete key).2 else c

theorem CacheHandler.setDel_const {c : CacheHandler K V} {key : K} :
    (c.setDel key).max_size_bytes = c.max_size_bytes ∧
      (c.setDel key).default_ttl = c.default_ttl := by
  unfold CacheHandler.setDel
  by_cases hk : (lookupKV key c.cache).isSome
  · rw [if_pos hk]
    exact CacheHandler.delete_const
  · rw [if_neg hk]
    exact ⟨rfl, rfl⟩

theorem CacheHandler.setDel_not_mem {c : CacheHandler K V} {key : K}
    (hnd : NodupKeys c.cache) : key ∉ keysOf (c.setDel key).cache := by
  unfold CacheHandler.setDel
  by_cases hk : (lookupKV key c.cache).isSome
  · rw [if_pos hk]
    unfold CacheHandler.delete
    cases hl : lookupKV key c.cache with
    | none => rw [hl] at hk; simp at hk
    | some e => exact not_mem_keys_eraseFirst hnd
  · rw [if_neg hk]
    rw [← lookupKV_eq_none_iff]
    exact Option.not_isSome_iff_eq_none.mp hk

theorem CacheHandler.setDel_nodup {c : CacheHandler K V} {key : K}
    (hnd : NodupKeys c.cache) : NodupKeys (c.setDel key).cache := by
  unfold CacheHandler.setDel
  by_cases hk : (lookupKV key c.cache).isSome
  · rw [if_pos hk]
    unfold CacheHandler.delete
    cases hl : lookupKV key c.cache with
    | none => exact hnd
    | some e => exact nodupKeys_eraseFirst hnd
  · rw [if_neg hk]
    exact hnd

/-- Unfolded form of a successful `set`: the new entry (carrying
`ttl or default_ttl`) is appended after the delete-existing and
make-room steps, and the running size grows by the entry size. -/
theorem CacheHandler.set_eq_of_fits {c : CacheHandler K V} {sz : V → Nat} {now : ℚ}
    {key : K} {value : V} {ttl : Option ℚ} (hsz : ¬ c.max_size_bytes < sz value) :
    c.set sz now key value ttl =
      (true,
       { (c.setDel key).makeRoom (sz value) with
          cache := ((c.setDel key).makeRoom (sz value)).cache ++
            [(key, ⟨value, now, some (pyTtlOr ttl c.default_ttl), 0, sz value⟩)]
          current_size := ((c.setDel key).makeRoom (sz value)).current_size + sz value }) := by
  unfold CacheHandler.set CacheHandler.setDel
  rw [if_neg hsz]

theorem CacheHandler.set_nodup {c : CacheHandler K V} {sz : V → Nat} {now : ℚ}
    {key : K} {value : V} {ttl : Option ℚ} (hnd : NodupKeys c.cache) :
    NodupKeys (c.set sz now key value ttl).2.cache := by
  by_cases hsz : c.max_size_bytes < sz value
  · unfold CacheHandler.set
    rw [if_pos hsz]
    exact hnd
  · rw [CacheHandler.set_eq_of_fits hsz]
    have hnm : key ∉ keysOf ((c.setDel key).makeRoom (sz value)).cache := by
      intro hm
      exact CacheHandler.setDel_not_mem hnd
        ((List.Sublist.map Prod.fst CacheHandler.makeRoom_cache_sublist).subset hm)
    have hnd₂ : NodupKeys ((c.setDel key).makeRoom (sz value)).cache :=
      nodupKeys_of_sublist CacheHandler.makeRoom_cache_sublist (CacheHandler.setDel_nodup hnd)
    simp only [NodupKeys, keysOf, List.map_append, List.map_cons, List.map_nil]
    rw [List.nodup_append]
    refine ⟨hnd₂, List.nodup_singleton _, ?_⟩
    intro a ha hb
    simp at hb
    subst hb
    exact hnm ha

theorem CacheHandler.set_const {c : CacheHandler K V} {sz : V → Nat} {now : ℚ}
    {key : K} {value : V} {ttl : Option ℚ} :
    (c.set sz now key value ttl).2.max_size_bytes = c.max_size_bytes ∧
      (c.set sz now key value ttl).2.default_ttl = c.default_ttl := by
  by_cases hsz : c.max_size_bytes < sz value
  · unfold CacheHandler.set
    rw [if_pos hsz]
    exact ⟨rfl, rfl⟩
  · rw [CacheHandler.set_eq_of_fits hsz]
    exact ⟨CacheHandler.makeRoom_const.1.trans CacheHandler.setDel_const.1,
           CacheHandler.makeRoom_const.2.trans CacheHandler.setDel_const.2⟩

theorem CacheHandler.delete_stats {c : CacheHandler K V} {key : K} :
    (c.delete key).2.hits = c.hits ∧ (c.delete key).2.misses = c.misses ∧
      (c.delete key).2.expired = c.expired := by
  unfold CacheHandler.delete
  cases lookupKV key c.cache with
  | none => exact ⟨rfl, rfl, rfl⟩
  | some e => exact ⟨rfl, rfl, rfl⟩

theorem CacheHandler.delete_cache_of_mem {c : CacheHandler K V} {key : K}
    {e : CacheEntry V} (hl : lookupKV key c.cache = some e) :
    (c.delete key).2.cache = eraseFirst key c.cache := by
  unfold CacheHandler.delete
  rw [hl]

/-- Behaviour of `set` on a state whose last entry already holds the key
with the same recorded size, when the running size is within budget: the
entry is replaced in place (delete, no eviction, append) and the running
size is unchanged. -/
theorem CacheHandler.set_replace_fit (d : CacheHandler K V) (sz : V → Nat)
    (now : ℚ) (key : K) (value : V) (ttl : Option ℚ)
    (pre : List (K × CacheEntry V)) (e₁ : CacheEntry V)
    (hc : d.cache = pre ++ [(key, e₁)]) (hk : key ∉ keysOf pre)
    (hs : e₁.size_bytes = sz value)
    (hmax : ¬ d.max_size_bytes < sz value)
    (hcur : d.current_size ≤ (d.max_size_bytes : Int)) :
    (d.set sz now key value ttl).2.cache
        = pre ++ [(key, ⟨value, now, some (pyTtlOr ttl d.default_ttl), 0, sz value⟩)] ∧
      (d.set sz now key value ttl).2.current_size = d.current_size := by
  have hlk : lookupKV key d.cache = some e₁ := by
    rw [hc]
    exact lookupKV_snoc_self hk
  have hsd : d.setDel key =
      { d with cache := pre, current_size := d.current_size - e₁.size_bytes } := by
    unfold CacheHandler.setDel
    rw [hlk]
    show (d.delete key).2 = _
    unfold CacheHandler.delete
    rw [hlk]
    dsimp only
    rw [hc, eraseFirst_snoc_self hk]
  have hroom : (d.setDel key).makeRoom (sz value) = d.setDel key := by
    apply CacheHandler.makeRoom_noop
    intro hcond
    have h₁ := hcond.1
    rw [hsd] at h₁
    dsimp only at h₁
    rw [hs] at h₁
    omega
  rw [CacheHandler.set_eq_of_fits hmax, hroom, hsd]
  dsimp only
  constructor
  · rfl
  · rw [hs]
    ring

/-- C2: run any sequence of cache operations from a fresh cache; the
invariant `current_size = sum of live entry sizes ∧ current_size ≤
max_size_bytes` holds after every operation (every prefix of the
sequence is itself a sequence). -/
theorem C2_cache_size_invariant (K V : Type) [DecidableEq K] (sz : V → Nat)
    (max_size_mb : Nat) (default_ttl : ℚ) (ops : List (CacheOp K V)) :
    CacheInv (CacheHandler.runOps sz (CacheHandler.init K V max_size_mb default_ttl) ops) :=
  CacheHandler.runOps_inv sz ops (CacheHandler.init_inv max_size_mb default_ttl)

/-- C4: behaviour of `get` on a present key: on an expired entry the
entry is deleted, `expired` and `misses` each grow by one, `hits` is
unchanged and a miss is returned; on a live entry the access count grows
by one, the entry moves to the most-recently-used end, `hits` grows by
one and the stored value is returned. -/
theorem C4_get_semantics {K V : Type} [DecidableEq K] (c : CacheHandler K V)
    (now : ℚ) (key : K) (e : CacheEntry V)
    (hnd : NodupKeys c.cache) (hl : lookupKV key c.cache = some e) :
    (pyExpired e now = true →
      (c.get now key).1 = none ∧
      (c.get now key).2.expired = c.expired + 1 ∧
      (c.get now key).2.misses = c.misses + 1 ∧
      (c.get now key).2.hits = c.hits ∧
      lookupKV key (c.get now key).2.cache = none) ∧
    (pyExpired e now = false →
      (c.get now key).1 = some e.value ∧
      (c.get now key).2.hits = c.hits + 1 ∧
      (c.get now key).2.misses = c.misses ∧
      (c.get now key).2.expired = c.expired ∧
      (c.get now key).2.cache =
        eraseFirst key c.cache ++ [(key, { e with access_count := e.access_count + 1 })]) := by
  constructor
  · intro hexp
    have hget : c.get now key =
        (none, { (c.delete key).2 with
                  expired := (c.delete key).2.expired + 1
                  misses := (c.delete key).2.misses + 1 }) := by
      unfold CacheHandler.get
      rw [hl]
      dsimp only
      rw [hexp, if_pos rfl]
    rw [hget]
    refine ⟨rfl, ?_, ?_, ?_, ?_⟩
    · show (c.delete key).2.expired + 1 = c.expired + 1
      rw [CacheHandler.delete_stats.2.2]
    · show (c.delete key).2.misses + 1 = c.misses + 1
      rw [CacheHandler.delete_stats.2.1]
    · show (c.delete key).2.hits = c.hits
      exact CacheHandler.delete_stats.1
    · show lookupKV key (c.delete key).2.cache = none
      rw [CacheHandler.delete_cache_of_mem hl]
      exact lookupKV_eq_none_iff.mpr (not_mem_keys_eraseFirst hnd)
  · intro hlive
    have hget : c.get now key =
        (some e.value,
         { c with
            cache := eraseFirst key c.cache ++
              [(key, { e with access_count := e.access_count + 1 })]
            hits := c.hits + 1 }) := by
      unfold CacheHandler.get
      rw [hl]
      dsimp only
      rw [hlive, if_neg Bool.false_ne_true]
    rw [hget]
    exact ⟨rfl, rfl, rfl, rfl, rfl⟩

/-- Closed witness for C4: on a one-entry cache holding value 7 under
key 1 with ttl 10, a `get` at time 0 is a hit returning 7 and raising
`hits` to one. -/
def c4w : CacheHandler Nat Nat :=
  { max_size_bytes := 100, default_ttl := 300
    cache := [(1, ⟨7, 0, some 10, 0, 4⟩)], current_size := 4
    hits := 0, misses := 0, evictions := 0, expired := 0 }

theorem C4_get_semantics_witness :
    (c4w.get 0 1).1 = some 7 ∧ (c4w.get 0 1).2.hits = 1 := by
  have hexp : pyExpired (⟨7, 0, some 10, 0, 4⟩ : CacheEntry Nat) 0 = false := by
    simp only [pyExpired]
    rw [decide_eq_false_iff_not]
    norm_num
  have h := (C4_get_semantics c4w 0 1 ⟨7, 0, some 10, 0, 4⟩ (by decide) (by decide)).2 hexp
  exact ⟨h.1, h.2.1⟩

/-- C5: a second identical `set(k, v)` right after a first one changes
neither the entry count nor the running byte total (the size estimate is
a Lean function of the value, hence deterministic). -/
theorem C5_set_idempotent {K V : Type} [DecidableEq K] (c : CacheHandler K V)
    (sz : V → Nat) (now₁ now₂ : ℚ) (key : K) (value : V) (ttl : Option ℚ)
    (hnd : NodupKeys c.cache) (hinv : CacheInv c) :
    ((c.set sz now₁ key value ttl).2.set sz now₂ key value ttl).2.cache.length
        = (c.set sz now₁ key value ttl).2.cache.length ∧
      ((c.set sz now₁ key value ttl).2.set sz now₂ key value ttl).2.current_size
        = (c.set sz now₁ key value ttl).2.current_size := by
  by_cases hmax : c.max_size_bytes < sz value
  · have h₁ : (c.set sz now₁ key value ttl).2 = c := by
      unfold CacheHandler.set
      rw [if_pos hmax]
    have h₂ : (c.set sz now₂ key value ttl).2 = c := by
      unfold CacheHandler.set
      rw [if_pos hmax]
    rw [h₁, h₂]
    exact ⟨rfl, rfl⟩
  · have hr₁ := @CacheHandler.set_eq_of_fits K V _ c sz now₁ key value ttl hmax
    have hnm : key ∉ keysOf ((c.setDel key).makeRoom (sz value)).cache := by
      intro hm
      exact CacheHandler.setDel_not_mem hnd
        ((List.Sublist.map Prod.fst CacheHandler.makeRoom_cache_sublist).subset hm)
    have hinv₁ : CacheInv (c.set sz now₁ key value ttl).2 :=
      CacheHandler.set_inv sz now₁ key value ttl hinv
    have hmax₁ : ¬ (c.set sz now₁ key value ttl).2.max_size_bytes < sz value := by
      rw [CacheHandler.set_const.1]
      exact hmax
    have hcache₁ : (c.set sz now₁ key value ttl).2.cache
        = ((c.setDel key).makeRoom (sz value)).cache ++
          [(key, ⟨value, now₁, some (pyTtlOr ttl c.default_ttl), 0, sz value⟩)] := by
      rw [hr₁]
    have hrep := CacheHandler.set_replace_fit (c.set sz now₁ key value ttl).2 sz now₂
      key value ttl ((c.setDel key).makeRoom (sz value)).cache
      ⟨value, now₁, some (pyTtlOr ttl c.default_ttl), 0, sz value⟩
      hcache₁ hnm rfl hmax₁ hinv₁.2
    refine ⟨?_, hrep.2⟩
    rw [hrep.1, hcache₁]
    simp

/-- Closed witness for C5: two identical sets of value 5 under key 2 on
an empty cache leave one entry of the recorded size. -/
def c5w : CacheHandler Nat Nat := CacheHandler.init Nat Nat 1 300

theorem C5_set_idempotent_witness :
    ((c5w.set (fun _ => 8) 0 2 5 none).2.set (fun _ => 8) 1 2 5 none).2.cache.length
        = (c5w.set (fun _ => 8) 0 2 5 none).2.cache.length ∧
      ((c5w.set (fun _ => 8) 0 2 5 none).2.set (fun _ => 8) 1 2 5 none).2.current_size
        = (c5w.set (fun _ => 8) 0 2 5 none).2.current_size :=
  C5_set_idempotent c5w (fun _ => 8) 0 1 2 5 none (by decide)
    ⟨by decide, by decide⟩

/-- C10: a successful `set` whose ttl argument is `None` or `0` stores
the entry with the configured default ttl (`ttl or default_ttl` treats a
zero ttl as unset); hence the entry has a ttl, and with a positive
default it does not expire immediately: a `get` at the same instant
returns the value. -/
theorem C10_zero_ttl_uses_default {K V : Type} [DecidableEq K] (c : CacheHandler K V)
    (sz : V → Nat) (now : ℚ) (key : K) (value : V) (ttl : Option ℚ)
    (httl : ttl = none ∨ ttl = some 0)
    (hnd : NodupKeys c.cache)
    (hsz : ¬ c.max_size_bytes < sz value)
    (hpos : 0 < c.default_ttl) :
    (c.set sz now key value ttl).1 = true ∧
      (∃ pre, (c.set sz now key value ttl).2.cache
        = pre ++ [(key, ⟨value, now, some c.default_ttl, 0, sz value⟩)]) ∧
      ((c.set sz now key value ttl).2.get now key).1 = some value := by
  have hpy : pyTtlOr ttl c.default_ttl = c.default_ttl := by
    rcases httl with h | h
    · rw [h]
      rfl
    · rw [h]
      simp [pyTtlOr]
  have hr := @CacheHandler.set_eq_of_fits K V _ c sz now key value ttl hsz
  rw [hpy] at hr
  have hnm : key ∉ keysOf ((c.setDel key).makeRoom (sz value)).cache := by
    intro hm
    exact CacheHandler.setDel_not_mem hnd
      ((List.Sublist.map Prod.fst CacheHandler.makeRoom_cache_sublist).subset hm)
  refine ⟨by rw [hr], ⟨((c.setDel key).makeRoom (sz value)).cache, by rw [hr]⟩, ?_⟩
  have hlk : lookupKV key (c.set sz now key value ttl).2.cache
      = some ⟨value, now, some c.default_ttl, 0, sz value⟩ := by
    rw [hr]
    exact lookupKV_snoc_self hnm
  have hnexp : pyExpired (⟨value, now, some c.default_ttl, 0, sz value⟩ : CacheEntry V) now
      = false := by
    simp only [pyExpired]
    rw [decide_eq_false_iff_not]
    intro hgt
    rw [sub_self] at hgt
    exact absurd (hpos.trans hgt) (lt_irrefl 0)
  unfold CacheHandler.get
  rw [hlk]
  dsimp only
  rw [hnexp, if_neg Bool.false_ne_true]

/-- Closed witness for C10: setting key 3 with ttl 0 on a fresh cache
succeeds and an immediate `get` returns the value. -/
def c10w : CacheHandler Nat Nat := CacheHandler.init Nat Nat 1 300

theorem C10_zero_ttl_uses_default_witness :
    (c10w.set (fun _ => 8) 0 3 9 (some 0)).1 = true ∧
      (∃ pre, (c10w.set (fun _ => 8) 0 3 9 (some 0)).2.cache
        = pre ++ [(3, ⟨9, 0, some c10w.default_ttl, 0, 8⟩)]) ∧
      ((c10w.set (fun _ => 8) 0 3 9 (some 0)).2.get 0 3).1 = some 9 :=
  C10_zero_ttl_uses_default c10w (fun _ => 8) 0 3 9 (some 0) (Or.inr rfl)
    (by decide) (by decide) (by decide)

/-! ### Signal validator (`core/signal_validation.py`)

The validator is stateless; its methods are plain functions.  Python
float values (which may be NaN or infinite) are modelled by `PyFloat`;
`numpy` comparisons on them follow IEEE semantics (any comparison with
NaN is false). -/

/-- `SignalType` enum of `core/interfaces.py`. -/
inductive SignalType where
  | temporal
  | spatial
  | categorical
  | boolean
  | binary
deriving Repr, DecidableEq

/-- `SignalInfo` dataclass of `core/interfaces.py` (the `metadata` field
is never consulted by the validated code and is omitted). -/
structure SignalInfo where
  name : String
  signal_type : SignalType
  units : String
  description : String
  value_range : Option (ℚ × ℚ)
  sampling_rate : Option ℚ
  coordinate_system : Option String
deriving Repr, DecidableEq

/-- A python float: finite, one of the two infinities, or NaN. -/
inductive PyFloat where
  | finite (q : ℚ)
  | inf
  | ninf
  | nan
deriving Repr, DecidableEq

/-- IEEE subtraction as computed by `np.diff` (differences of
like infinities, and anything involving NaN, are NaN). -/
def PyFloat.sub : PyFloat → PyFloat → PyFloat
  | .nan, _ => .nan
  | _, .nan => .nan
  | .finite a, .finite b => .finite (a - b)
  | .finite _, .inf => .inf
  | .finite _, .ninf => .ninf
  | .inf, .finite _ => .ninf
  | .inf, .inf => .nan
  | .inf, .ninf => .ninf
  | .ninf, .finite _ => .inf
  | .ninf, .inf => .inf
  | .ninf, .ninf => .nan

/-- IEEE test `x >= 0` (false for NaN). -/
def PyFloat.ge0 : PyFloat → Bool
  | .finite q => decide (0 ≤ q)
  | .inf => true
  | .ninf => false
  | .nan => false

/-- `np.all(np.diff(timestamps) >= 0)`: every adjacent difference
`t[i+1] - t[i]` is nonnegative (vacuously true on fewer than two
samples). -/
def diffsNonneg : List PyFloat → Bool
  | [] => true
  | [_] => true
  | a :: b :: rest => (PyFloat.sub b a).ge0 && diffsNonneg (b :: rest)

/-- `SignalValidator._validate_temporal_signal` on a payload already
split into its `timestamps` and `values` members (`None` when the
corresponding key is missing): both present, equal length, non-empty,
non-decreasing timestamps; NaN or infinite values only produce a
logging warning and never affect the result. -/
def SignalValidator.validate_temporal_signal
    (timestamps values : Option (List PyFloat)) : Bool :=
  match timestamps, values with
  | some ts, some vs =>
      if ts.length = vs.length then
        if ts.length = 0 then false
        else diffsNonneg ts
      else false
  | _, _ => false

/-- `SignalValidator.validate_signal_info`: name, units, description
non-empty; value range (when given) with min strictly below max;
sampling rate (when given) strictly positive; spatial signals must carry
a python-truthy (present and non-empty) coordinate system. -/
def SignalValidator.validate_signal_info (si : SignalInfo) : Bool :=
  !si.name.isEmpty && !si.units.isEmpty && !si.description.isEmpty &&
    (match si.value_range with
     | none => true
     | some (min_val, max_val) => decide (min_val < max_val)) &&
    (match si.sampling_rate with
     | none => true
     | some r => decide (0 < r)) &&
    (if si.signal_type = SignalType.spatial then
       match si.coordinate_system with
       | none => false
       | some s => !s.isEmpty
     else true)

theorem diffsNonneg_map_finite (ts : List ℚ) :
    diffsNonneg (ts.map PyFloat.finite) = true ↔ ts.Chain' (· ≤ ·) := by
  induction ts with
  | nil => simp [diffsNonneg]
  | cons a tl ih =>
    cases tl with
    | nil => simp [diffsNonneg]
    | cons b tl₂ =>
      simp only [List.map_cons] at ih ⊢
      rw [List.chain'_cons]
      simp only [diffsNonneg, Bool.and_eq_true]
      rw [ih]
      simp [PyFloat.sub, PyFloat.ge0, sub_nonneg]

theorem validate_temporal_finite_iff (ts : List ℚ) (vs : List PyFloat) :
    SignalValidator.validate_temporal_signal (some (ts.map PyFloat.finite)) (some vs) = true ↔
      (ts.length = vs.length ∧ ts ≠ [] ∧ ts.Chain' (· ≤ ·)) := by
  show (if (ts.map PyFloat.finite).length = vs.length then
      if (ts.map PyFloat.finite).length = 0 then false
      else diffsNonneg (ts.map PyFloat.finite)
    else false) = true ↔ _
  rw [List.length_map]
  by_cases hlen : ts.length = vs.length
  · rw [if_pos hlen]
    by_cases hz : ts.length = 0
    · rw [if_pos hz]
      have hnil : ts = [] := List.length_eq_zero.mp hz
      simp [hnil]
    · rw [if_neg hz]
      have hne : ts ≠ [] := by
        intro hc
        exact hz (by rw [hc]; rfl)
      rw [diffsNonneg_map_finite]
      simp [hlen, hne]
  · rw [if_neg hlen]
    simp [hlen]

/-- C6: temporal-sample validation accepts exactly the payloads with
equal-length non-empty timestamp and value sequences and non-decreasing
timestamps; the values themselves (NaN and infinities included) never
influence the verdict; timestamps `[1, 0, 2]` are rejected and
`[0, 1, 2]` with three values accepted. -/
theorem C6_temporal_validation :
    (∀ (ts : List ℚ) (vs : List PyFloat),
        SignalValidator.validate_temporal_signal (some (ts.map PyFloat.finite)) (some vs) = true ↔
          (ts.length = vs.length ∧ ts ≠ [] ∧ ts.Chain' (· ≤ ·))) ∧
    (∀ (ts : Option (List PyFloat)) (vs vs₂ : List PyFloat), vs.length = vs₂.length →
        SignalValidator.validate_temporal_signal ts (some vs) =
          SignalValidator.validate_temporal_signal ts (some vs₂)) ∧
    SignalValidator.validate_temporal_signal (some ([1, 0, 2].map PyFloat.finite))
        (some ([0, 0, 0].map PyFloat.finite)) = false ∧
    SignalValidator.validate_temporal_signal (some ([0, 1, 2].map PyFloat.finite))
        (some [PyFloat.nan, PyFloat.inf, PyFloat.finite 1]) = true := by
  refine ⟨validate_temporal_finite_iff, ?_, ?_, ?_⟩
  · intro ts vs vs₂ h
    cases ts with
    | none => rfl
    | some t =>
      show (if t.length = vs.length then _ else false)
          = (if t.length = vs₂.length then _ else false)
      rw [h]
  · rw [Bool.eq_false_iff]
    intro hc
    rw [validate_temporal_finite_iff] at hc
    have h01 := hc.2.2
    rw [List.chain'_cons] at h01
    exact absurd h01.1 (by norm_num)
  · rw [validate_temporal_finite_iff [0, 1, 2]]
    refine ⟨rfl, by simp, ?_⟩
    rw [List.chain'_cons, List.chain'_cons]
    refine ⟨by norm_num, by norm_num, List.chain'_singleton _⟩

/-- Closed witness for C6: the verdict ignores the values whenever the
lengths agree. -/
theorem C6_temporal_validation_witness :
    SignalValidator.validate_temporal_signal (some ([0, 1].map PyFloat.finite))
        (some [PyFloat.nan, PyFloat.finite 2]) =
      SignalValidator.validate_temporal_signal (some ([0, 1].map PyFloat.finite))
        (some [PyFloat.finite 3, PyFloat.finite 4]) :=
  C6_temporal_validation.2.1 _ _ _ rfl

/-! ### Performance monitor (`core/performance_monitor.py`)

Clock readings (`time.perf_counter()`) are passed in explicitly.  The
per-operation history deque is created with the hard-coded
`maxlen=1000` of the `PerformanceMetrics` dataclass. -/

structure PerformanceMonitor where
  max_history : Nat
  operation_times : List (String × List ℚ)
  custom_metrics : List (String × ℚ)
  counters : List (String × Int)
  active_timers : List (String × ℚ)
deriving Repr, DecidableEq

def PerformanceMonitor.init (max_history : Nat) : PerformanceMonitor :=
  { max_history := max_history
    operation_times := []
    custom_metrics := []
    counters := []
    active_timers := [] }

/-- Append on a `deque(maxlen = bound)`: the oldest element is dropped
once the bound is exceeded. -/
def appendBounded (bound : Nat) (x : ℚ) (l : List ℚ) : List ℚ :=
  let l₁ := l ++ [x]
  if bound < l₁.length then l₁.drop (l₁.length - bound) else l₁

/-- `PerformanceMonitor.start_timing(operation)`: any prior unfinished
start for the name is overwritten. -/
def PerformanceMonitor.start_timing (m : PerformanceMonitor) (now : ℚ)
    (operation : String) : PerformanceMonitor :=
  { m with active_timers := insertKV operation now m.active_timers }

/-- `PerformanceMonitor.end_timing(operation)`: with no active timer,
log a warning and return zero without touching anything; otherwise pop
the start, record the duration in the bounded history and bump the
`<operation>_count` counter. -/
def PerformanceMonitor.end_timing (m : PerformanceMonitor) (now : ℚ)
    (operation : String) : ℚ × PerformanceMonitor :=
  match lookupKV operation m.active_timers with
  | none => (0, m)
  | some start =>
      let duration_ms := (now - start) * 1000
      (duration_ms,
       { m with
          active_timers := eraseFirst operation m.active_timers
          operation_times := insertKV operation
            (appendBounded 1000 duration_ms
              ((lookupKV operation m.operation_times).getD [])) m.operation_times
          counters := insertKV (operation ++ "_count")
            ((lookupKV (operation ++ "_count") m.counters).getD 0 + 1) m.counters })

/-- `PerformanceMonitor.record_metric(metric, value)`. -/
def PerformanceMonitor.record_metric (m : PerformanceMonitor) (metric : String)
    (value : ℚ) : PerformanceMonitor :=
  { m with
      custom_metrics := insertKV metric value m.custom_metrics
      counters := insertKV (metric ++ "_updates")
        ((lookupKV (metric ++ "_updates") m.counters).getD 0 + 1) m.counters }

/-- `PerformanceMonitor.increment_counter(counter, amount)`. -/
def PerformanceMonitor.increment_counter (m : PerformanceMonitor) (counter : String)
    (amount : Int) : PerformanceMonitor :=
  { m with
      counters := insertKV counter
        ((lookupKV counter m.counters).getD 0 + amount) m.counters }

/-- C8: ending a timer that was never started returns duration zero and
leaves the whole monitor state (history, counters, metrics and active
timers) untouched. -/
theorem C8_end_timing_without_start (m : PerformanceMonitor) (now : ℚ) (op : String)
    (h : lookupKV op m.active_timers = none) :
    m.end_timing now op = (0, m) := by
  unfold PerformanceMonitor.end_timing
  rw [h]

/-- Closed witness for C8 on a fresh monitor. -/
theorem C8_end_timing_without_start_witness :
    (PerformanceMonitor.init 1000).end_timing 5 "data_update"
      = (0, PerformanceMonitor.init 1000) :=
  C8_end_timing_without_start (PerformanceMonitor.init 1000) 5 "data_update" rfl

/-! ### Data-source plugin nearest-sample lookup

`BasePlugin.get_data_for_timestamp` (`plugins/base_plugin.py`, lines
115-156) implements the nearest-sample lookup.  A loaded dataframe is a
list of rows; the recognized time column's value of each row is the
`time` field, the remaining columns the `cells` association list (all
values `float()`-coerced, hence rationals in the model).
`np.abs(df[time_col] - t).idxmin()` returns the first row index
attaining the minimal distance; `closestRow` reproduces that tie-break.

The override `VehicleDataPlugin.get_data_for_timestamp`
(`plugins/vehicle_data_plugin.py`, lines 165-205) is modelled
separately below: its body reads `self._time_column` (line 177), an
attribute no code in the repository ever assigns, so on a loaded plugin
that read raises `AttributeError`, the blanket `except Exception` at
line 203 swallows it, and the method returns `None` on every call
without reaching the closest-row computation. -/

structure DataRow where
  time : ℚ
  cells : List (String × ℚ)
deriving Repr, DecidableEq

structure BasePlugin where
  is_loaded : Bool
  data : Option (List DataRow)
  signals : List (String × SignalInfo)
  time_col : Option String
deriving Repr, DecidableEq

/-- A scalar sample dict `{timestamp, value, units}` as returned by the
temporal and default branches. -/
structure ScalarSample where
  timestamp : ℚ
  value : Option ℚ
  units : String
deriving Repr, DecidableEq

/-- A spatial sample dict `{x, y, z, timestamp}` as returned by
`_get_spatial_data`. -/
structure SpatialSample where
  x : ℚ
  y : ℚ
  z : Option ℚ
  timestamp : ℚ
deriving Repr, DecidableEq

inductive Sample where
  | scalar (s : ScalarSample)
  | spatial (s : SpatialSample)
deriving Repr, DecidableEq

/-- First row whose time is closest to `t` (`idxmin` keeps the earliest
index on ties; the left element wins the `≤` comparison here for the
same effect). -/
def closestRow (t : ℚ) : List DataRow → Option DataRow
  | [] => none
  | r :: rs =>
      match closestRow t rs with
      | none => some r
      | some r₁ => if |r.time - t| ≤ |r₁.time - t| then some r else some r₁

/-- `BasePlugin._get_spatial_data(row, signal)`. -/
def BasePlugin.spatialData (row : DataRow) : Sample :=
  .spatial
    { x := (lookupKV "x" row.cells).getD 0
      y := (lookupKV "y" row.cells).getD 0
      z := lookupKV "z" row.cells
      timestamp := row.time }

/-- The sample built from the chosen row: spatial signals go through
`_get_spatial_data`, everything else returns the
`{timestamp, value, units}` dict (value `None` when the column is
missing from the row). -/
def sampleOfRow (si : SignalInfo) (signal : String) (row : DataRow) : Sample :=
  if si.signal_type = SignalType.spatial then BasePlugin.spatialData row
  else .scalar { timestamp := row.time, value := lookupKV signal row.cells, units := si.units }

/-- `BasePlugin.get_data_for_timestamp(signal, timestamp)`: `None` when
unloaded, data missing, the signal unregistered or no time column is
recognized; otherwise the sample of the closest row (`idxmin` raising on
an empty frame is caught and yields `None`). -/
def BasePlugin.get_data_for_timestamp (p : BasePlugin) (signal : String)
    (timestamp : ℚ) : Option Sample :=
  if p.is_loaded = false then none
  else
    match p.data with
    | none => none
    | some rows =>
        match lookupKV signal p.signals with
        | none => none
        | some si =>
            match p.time_col with
            | none => none
            | some _ =>
                match closestRow timestamp rows with
                | none => none
                | some row => some (sampleOfRow si signal row)

theorem closestRow_spec (t : ℚ) (rows : List DataRow) (hne : rows ≠ []) :
    ∃ row, closestRow t rows = some row ∧ row ∈ rows ∧
      ∀ r₁ ∈ rows, |row.time - t| ≤ |r₁.time - t| := by
  induction rows with
  | nil => exact absurd rfl hne
  | cons r rs ih =>
    by_cases hrs : rs = []
    · subst hrs
      refine ⟨r, rfl, List.mem_singleton_self r, ?_⟩
      intro r₁ h₁
      rw [List.mem_singleton.mp h₁]
    · obtain ⟨row₁, hcr, hmem, hmin⟩ := ih hrs
      show (∃ row, (match closestRow t rs with
        | none => some r
        | some r₁ => if |r.time - t| ≤ |r₁.time - t| then some r else some r₁) = some row ∧ _)
      rw [hcr]
      dsimp only
      by_cases hle : |r.time - t| ≤ |row₁.time - t|
      · refine ⟨r, by rw [if_pos hle], List.mem_cons_self r rs, ?_⟩
        intro r₁ h₁
        rcases List.mem_cons.mp h₁ with h₂ | h₂
        · rw [h₂]
        · exact hle.trans (hmin r₁ h₂)
      · refine ⟨row₁, by rw [if_neg hle], List.mem_cons_of_mem r hmem, ?_⟩
        intro r₁ h₁
        rcases List.mem_cons.mp h₁ with h₂ | h₂
        · rw [h₂]
          exact (lt_of_not_le hle).le
        · exact hmin r₁ h₂

/-- The concrete end-to-end example of the spec: a loaded plugin with
the "speed" signal and samples at t = 4.8 and t = 5.3. -/
def speedInfo : SignalInfo :=
  { name := "speed", signal_type := .temporal, units := "m/s"
    description := "vehicle speed", value_range := none
    sampling_rate := none, coordinate_system := none }

def pSpeed : BasePlugin :=
  { is_loaded := true
    data := some [⟨4.8, [("speed", 12)]⟩, ⟨5.3, [("speed", 14)]⟩]
    signals := [("speed", speedInfo)]
    time_col := some "time" }

/-- Nearest-sample semantics of the base implementation
(`base_plugin.py:115-156`): on a loaded plugin with a recognized time
column, a registered signal resolves to the sample of a row whose
timestamp distance to the query is minimal over all rows (no
interpolation); on the concrete plugin with samples at 4.8 and 5.3, the
query at 5.0 returns the 4.8 sample. -/
theorem basePlugin_nearest_sample :
    (∀ (p : BasePlugin) (signal : String) (t : ℚ) (rows : List DataRow) (si : SignalInfo),
        p.is_loaded = true → p.data = some rows → rows ≠ [] →
        lookupKV signal p.signals = some si → p.time_col.isSome = true →
        ∃ row, row ∈ rows ∧ (∀ r₁ ∈ rows, |row.time - t| ≤ |r₁.time - t|) ∧
          p.get_data_for_timestamp signal t = some (sampleOfRow si signal row)) ∧
      pSpeed.get_data_for_timestamp "speed" 5
        = some (.scalar { timestamp := 4.8, value := some 12, units := "m/s" }) := by
  constructor
  · intro p signal t rows si hload hdata hne hsig htc
    obtain ⟨tc, htc₂⟩ := Option.isSome_iff_exists.mp htc
    obtain ⟨row, hcr, hmem, hmin⟩ := closestRow_spec t rows hne
    refine ⟨row, hmem, hmin, ?_⟩
    unfold BasePlugin.get_data_for_timestamp
    rw [hload, hdata, hsig, htc₂]
    dsimp only
    rw [hcr]
    rfl
  · have h₁ : closestRow 5 [⟨5.3, [("speed", 14)]⟩] = some ⟨5.3, [("speed", 14)]⟩ := rfl
    have h₂ : closestRow 5 [⟨4.8, [("speed", 12)]⟩, ⟨5.3, [("speed", 14)]⟩]
        = some ⟨4.8, [("speed", 12)]⟩ := by
      show (match closestRow 5 [⟨5.3, [("speed", 14)]⟩] with
        | none => some ⟨4.8, [("speed", 12)]⟩
        | some r₁ => if |(4.8 : ℚ) - 5| ≤ |r₁.time - 5| then some ⟨4.8, [("speed", 12)]⟩
            else some r₁) = some ⟨4.8, [("speed", 12)]⟩
      rw [h₁]
      dsimp only
      rw [if_pos ?_]
      show |(4.8 : ℚ) - 5| ≤ |(5.3 : ℚ) - 5|
      rw [abs_of_neg (by norm_num), abs_of_pos (by norm_num)]
      norm_num
    unfold BasePlugin.get_data_for_timestamp
    show (match pSpeed.data with
      | none => none
      | some rows => _) = _
    rw [show pSpeed.data = some [⟨4.8, [("speed", 12)]⟩, ⟨5.3, [("speed", 14)]⟩] from rfl]
    show (match lookupKV "speed" pSpeed.signals with
      | none => none
      | some si => _) = _
    rw [show lookupKV "speed" pSpeed.signals = some speedInfo from rfl]
    show (match closestRow 5 [⟨4.8, [("speed", 12)]⟩, ⟨5.3, [("speed", 14)]⟩] with
      | none => none
      | some row => some (sampleOfRow speedInfo "speed" row)) = _
    rw [h₂]
    rfl

/-- `VehicleDataPlugin.get_data_for_timestamp`
(`vehicle_data_plugin.py:165-205`) as staged: the unloaded / missing
data / unregistered signal gates return `None`; the body of the `try`
then immediately reads `self._time_column` (line 177), an attribute
never assigned anywhere in the repository, so the read raises
`AttributeError`, the blanket `except Exception` (line 203) logs it and
returns `None`.  The closest-row computation is unreachable. -/
def VehicleDataPlugin.get_data_for_timestamp (p : BasePlugin) (signal : String)
    (timestamp : ℚ) : Option Sample :=
  if p.is_loaded = false then none
  else
    match p.data with
    | none => none
    | some _ =>
        match lookupKV signal p.signals with
        | none => none
        | some _ => none

/-- C9 (code bug): the claim's cited implementation
`VehicleDataPlugin.get_data_for_timestamp` returns `None` on every
input — in particular on the claim's own failing input, the loaded
plugin with samples at t = 4.8 and t = 5.3 queried at t = 5.0 — because
`self._time_column` is read (line 177) but never assigned, and the
blanket `except` swallows the `AttributeError`.  The repository's own
test `tests/test_time_column_cache.py` expects `_time_column` to be set
after `load`, and the base implementation realizes the claimed
nearest-sample semantics (third conjunct), so the claim states the
intent and the override is the slip. -/
theorem C9_vehicle_get_data_always_none :
    VehicleDataPlugin.get_data_for_timestamp pSpeed "speed" 5 = none ∧
      (∀ (p : BasePlugin) (signal : String) (t : ℚ),
          VehicleDataPlugin.get_data_for_timestamp p signal t = none) ∧
      pSpeed.get_data_for_timestamp "speed" 5
        = some (.scalar { timestamp := 4.8, value := some 12, units := "m/s" }) := by
  refine ⟨rfl, ?_, basePlugin_nearest_sample.2⟩
  intro p signal t
  unfold VehicleDataPlugin.get_data_for_timestamp
  by_cases h : p.is_loaded = false
  · rw [if_pos h]
  · rw [if_neg h]
    cases hd : p.data with
    | none => rfl
    | some rows =>
      cases hl : lookupKV signal p.signals with
      | none => rfl
      | some si => rfl

/-! ### Orchestrator (`core/plot_manager.py`)

A registered plugin is modelled through the `IPlugin` surface the
orchestrator consumes: its name, the result of `load()`, its signal
catalogue and its pure `get_data_for_timestamp` function (a call that
raises or exceeds the collection timeout is a `none` result, which the
source likewise drops from the merged map).  Subscriber callbacks are
opaque numeric handles; invoking one is recorded in the returned trace
rather than executed.  The optional `on_*` event hooks of the source
default to `None` and are not modelled.  `V` is the sample type and the
`sz` parameter of the query stands for the cache size estimate
`_calculate_size`. -/

structure PyPlugin (V : Type) where
  name : String
  load_ok : Bool
  signals : List (String × SignalInfo)
  get_data : String → ℚ → Option V

structure PlotManager (V : Type) where
  plugins : List (String × PyPlugin V)
  signals : List (String × SignalInfo)
  plugin_signals : List (String × List String)
  signal_subscribers : List (String × List Nat)
  performance_monitor : PerformanceMonitor
  cache : CacheHandler (ℚ × List String) (List (String × V))
  current_timestamp : ℚ

/-- `PlotManager.__init__`: empty registry, a 512 MB / 300 s cache and a
fresh monitor. -/
def PlotManager.init (V : Type) : PlotManager V :=
  { plugins := []
    signals := []
    plugin_signals := []
    signal_subscribers := []
    performance_monitor := PerformanceMonitor.init 1000
    cache := CacheHandler.init (ℚ × List String) (List (String × V)) 512 300
    current_timestamp := 0 }

variable {V : Type}

/-- `PlotManager.unregister_plugin(plugin_name)`: unknown name returns
`False`; otherwise every signal the plugin owns is removed from the
signal index and the subscriber registry, then the plugin itself is
dropped (its own `unload()` has no effect on orchestrator state). -/
def PlotManager.unregister_plugin (pm : PlotManager V) (plugin_name : String) :
    Bool × PlotManager V :=
  if (lookupKV plugin_name pm.plugins).isSome then
    let owned := (lookupKV plugin_name pm.plugin_signals).getD []
    (true,
     { pm with
        signals := owned.foldl (fun m s => eraseFirst s m) pm.signals
        signal_subscribers := owned.foldl (fun m s => eraseFirst s m) pm.signal_subscribers
        plugin_signals := eraseFirst plugin_name pm.plugin_signals
        plugins := eraseFirst plugin_name pm.plugins })
  else (false, pm)

/-- The signal-registration loop of `register_plugin`: valid metadata
goes into the global index and the plugin's owned set, invalid metadata
is skipped. -/
def registerSignalsLoop (pname : String) (sigs : List (String × SignalInfo))
    (pm : PlotManager V) : PlotManager V :=
  sigs.foldl (fun acc sns =>
    if SignalValidator.validate_signal_info sns.2 then
      { acc with
          signals := insertKV sns.1 sns.2 acc.signals
          plugin_signals := insertKV pname
            (addIfAbsent sns.1 ((lookupKV pname acc.plugin_signals).getD []))
            acc.plugin_signals }
    else acc) pm

/-- `PlotManager.register_plugin(plugin)` at monitor clock `now`: an
already-registered name is unregistered first; a failing `load()` aborts
(after that cleanup); otherwise the plugin is stored, its valid signals
registered, and the registration timed. -/
def PlotManager.register_plugin (pm : PlotManager V) (now : ℚ) (p : PyPlugin V) :
    Bool × PlotManager V :=
  let pm₀ := { pm with performance_monitor :=
    pm.performance_monitor.start_timing now "plugin_registration" }
  let pm₁ := if (lookupKV p.name pm₀.plugins).isSome
    then (pm₀.unregister_plugin p.name).2 else pm₀
  if p.load_ok = false then (false, pm₁)
  else
    let pm₂ := { pm₁ with
      plugins := insertKV p.name p pm₁.plugins
      plugin_signals := insertKV p.name [] pm₁.plugin_signals }
    let pm₃ := registerSignalsLoop p.name p.signals pm₂
    (true,
     { pm₃ with performance_monitor :=
        (pm₃.performance_monitor.end_timing now "plugin_registration").2 })

/-- Python truthiness of `signals or []` in the cache-key line of
`request_data_update`: both `None` and an empty list give `[]`. -/
def pyOrEmptyList (signals : Option (List String)) : List String :=
  match signals with
  | none => []
  | some l => if l.isEmpty then [] else l

/-- Python truthiness of `signals or list(self.signals.keys())` in the
target-selection line: both `None` and an empty list give the full
catalogue. -/
def pyOrKeys (signals : Option (List String)) (sigs : List (String × SignalInfo)) :
    List String :=
  match signals with
  | none => keysOf sigs
  | some l => if l.isEmpty then keysOf sigs else l

def sortStrings (l : List String) : List String :=
  l.insertionSort (· ≤ ·)

/-- The cache key of `request_data_update`:
`self.cache.create_key(timestamp, signals=sorted(signals or []))`.
`create_key` feeds `str(args) + str(sorted(kwargs.items()))` to the md5
hex digest; the digest is a fixed deterministic function of that data,
so the model keys the cache by the data itself: the timestamp paired
with the sorted `signals or []` list. -/
def queryCacheKey (timestamp : ℚ) (signals : Option (List String)) :
    ℚ × List String :=
  (timestamp, sortStrings (pyOrEmptyList signals))

/-- The cache key described by the spec sentence, for comparison:
`(timestamp, sorted(signals or all-known))`, the full catalogue standing
in when the argument is omitted or `None`. -/
def specCacheKey (timestamp : ℚ) (signals : Option (List String))
    (allKnown : List String) : ℚ × List String :=
  (timestamp,
   sortStrings (match signals with
     | none => allKnown
     | some l => l))

/-- The owner resolution of the fan-out loop: the first entry of
`plugin_signals` (in dict order) containing the signal wins and its
plugin is fetched from the registry (on a consistent registry the
fetch always succeeds; a dangling name would raise in the source and
abort the whole query, a corner no reachable state produces). -/
def findOwner (plugins : List (String × PyPlugin V)) :
    List (String × List String) → String → Option (PyPlugin V)
  | [], _ => none
  | (pn, sigs) :: rest, s =>
      if s ∈ sigs then lookupKV pn plugins
      else findOwner plugins rest s

/-- `PlotManager._notify_subscribers(signal_data)`: the trace of
(signal, handle) callback invocations, every subscriber of every present
signal, failures isolated per handle. -/
def notifyTrace (subscribers : List (String × List Nat))
    (signal_data : List (String × V)) : List (String × Nat) :=
  signal_data.foldl (fun acc sd =>
    acc ++ ((lookupKV sd.1 subscribers).getD []).map (fun cb => (sd.1, cb))) []

/-- Result of one `request_data_update` call: the returned map, the
trace of dispatched plugin calls and invoked subscriber callbacks, and
the successor state. -/
structure QueryResult (V : Type) where
  result : List (String × V)
  dispatched : List String
  notified : List (String × Nat)
  pm : PlotManager V

/-- The cache-miss path of `request_data_update` (everything below the
`if cached_data:` line): resolve targets, dispatch one call per resolved
signal, merge non-null results, cache under the same key with ttl 300,
notify subscribers, stop the timer and record the duration metric. -/
def requestMiss (sz : List (String × V) → Nat) (pm : PlotManager V)
    (now timestamp : ℚ) (signals : Option (List String)) : QueryResult V :=
  let pm₁ := { pm with current_timestamp := timestamp }
  let target_signals := pyOrKeys signals pm₁.signals
  let futures := target_signals.filterMap (fun s =>
    if (lookupKV s pm₁.signals).isSome then
      (findOwner pm₁.plugins pm₁.plugin_signals s).map (fun p => (s, p))
    else none)
  let signal_data := futures.foldl (fun acc sp =>
    match sp.2.get_data sp.1 timestamp with
    | some d => insertKV sp.1 d acc
    | none => acc) []
  let cache₂ := (pm₁.cache.set sz now (queryCacheKey timestamp signals)
    signal_data (some 300)).2
  let timing := pm₁.performance_monitor.end_timing now "data_update"
  let mon₂ := timing.2.record_metric "data_update_duration" timing.1
  { result := signal_data
    dispatched := futures.map Prod.fst
    notified := notifyTrace pm₁.signal_subscribers signal_data
    pm := { pm₁ with cache := cache₂, performance_monitor := mon₂ } }

/-- `PlotManager.request_data_update(timestamp, signals)` at wall-clock
`now`: start the timer, probe the cache, and return immediately only
when the cached value is python-truthy (`if cached_data:`); a miss or a
falsy cached value falls through to the miss path. -/
def request_data_update (sz : List (String × V) → Nat) (pm : PlotManager V)
    (now timestamp : ℚ) (signals : Option (List String)) : QueryResult V :=
  let pm₀ := { pm with performance_monitor :=
    pm.performance_monitor.start_timing now "data_update" }
  let probe := pm₀.cache.get now (queryCacheKey timestamp signals)
  let pm₁ := { pm₀ with cache := probe.2 }
  match probe.1 with
  | some d =>
      if d.isEmpty then requestMiss sz pm₁ now timestamp signals
      else
        let mon₁ := (pm₁.performance_monitor.end_timing now "data_update").2
        let mon₂ := mon₁.record_metric "cache_hit_rate" 1
        { result := d
          dispatched := []
          notified := []
          pm := { pm₁ with performance_monitor := mon₂ } }
  | none => requestMiss sz pm₁ now timestamp signals

/-! ### Claims C1 and C3 -/

theorem sortStrings_perm_eq {l₁ l₂ : List String} (h : l₁.Perm l₂) :
    sortStrings l₁ = sortStrings l₂ := by
  refine @List.eq_of_perm_of_sorted String (· ≤ ·) _ _ _ ?_ ?_ ?_
  · exact (List.perm_insertionSort _ l₁).trans (h.trans (List.perm_insertionSort _ l₂).symm)
  · exact List.sorted_insertionSort _ l₁
  · exact List.sorted_insertionSort _ l₂

theorem sortStrings_pyOrEmptyList (l : List String) :
    sortStrings (pyOrEmptyList (some l)) = sortStrings l := by
  cases l with
  | nil => rfl
  | cons a t => rfl

/-- C1 (amended): the cache key used by `request_data_update` is a
deterministic function of the timestamp and the requested names seen as
a multiset, with the empty list (not the full signal catalogue)
substituted when the argument is omitted or `None`: permuting the
requested names yields the identical key, and an omitted argument keys
exactly like an empty request. -/
theorem C1_query_cache_key_deterministic (t : ℚ) (l₁ l₂ : List String)
    (hp : l₁.Perm l₂) :
    queryCacheKey t (some l₁) = queryCacheKey t (some l₂) ∧
      queryCacheKey t none = queryCacheKey t (some []) := by
  constructor
  · unfold queryCacheKey
    rw [sortStrings_pyOrEmptyList, sortStrings_pyOrEmptyList, sortStrings_perm_eq hp]
  · rfl

/-- Closed witness for C1 at a two-name permutation. -/
theorem C1_query_cache_key_deterministic_witness :
    queryCacheKey 0 (some ["b", "a"]) = queryCacheKey 0 (some ["a", "b"]) ∧
      queryCacheKey 0 none = queryCacheKey 0 (some []) :=
  C1_query_cache_key_deterministic 0 ["b", "a"] ["a", "b"] (by decide)

/-- C1 counterexample: with the catalogue holding the single signal "a"
and the signals argument omitted, the key the code builds (from the
empty list) differs from the key the claim describes (from all known
signal names). -/
theorem C1_counterexample : queryCacheKey 0 none ≠ specCacheKey 0 none ["a"] := by
  decide

/-- C3 (amended): when the cache probe of a query returns a non-empty
(python-truthy) value, the query returns that value with no plugin call
dispatched and no subscriber notified.  (An empty cached map is truthy
to the cache but falsy to `if cached_data:`, so it does not
short-circuit; see the counterexample.) -/
theorem C3_cache_hit_short_circuit (sz : List (String × V) → Nat)
    (pm : PlotManager V) (now timestamp : ℚ) (signals : Option (List String))
    (d : List (String × V))
    (hget : (pm.cache.get now (queryCacheKey timestamp signals)).1 = some d)
    (hne : d ≠ []) :
    (request_data_update sz pm now timestamp signals).result = d ∧
      (request_data_update sz pm now timestamp signals).dispatched = [] ∧
      (request_data_update sz pm now timestamp signals).notified = [] := by
  have hie : d.isEmpty = false := by
    cases d with
    | nil => exact absurd rfl hne
    | cons a t => rfl
  unfold request_data_update
  dsimp only
  rw [hget]
  dsimp only
  rw [hie, if_neg Bool.false_ne_true]
  exact ⟨rfl, rfl, rfl⟩

/-- State used by the C3 witness: a cache primed with a non-empty value
under the key of the probed query. -/
def pmHit : PlotManager ℚ :=
  { PlotManager.init ℚ with
      cache := { CacheHandler.init (ℚ × List String) (List (String × ℚ)) 512 300 with
        cache := [((5, ["a"]), ⟨[("a", 7)], 0, some 300, 0, 8⟩)]
        current_size := 8 } }

theorem C3_cache_hit_short_circuit_witness :
    (request_data_update (fun _ => 8) pmHit 0 5 (some ["a"])).result = [("a", 7)] ∧
      (request_data_update (fun _ => 8) pmHit 0 5 (some ["a"])).dispatched = [] ∧
      (request_data_update (fun _ => 8) pmHit 0 5 (some ["a"])).notified = [] := by
  have hexp : pyExpired (⟨[("a", 7)], 0, some 300, 0, 8⟩ : CacheEntry (List (String × ℚ))) 0
      = false := by
    simp only [pyExpired]
    rw [decide_eq_false_iff_not]
    norm_num
  have hget : (pmHit.cache.get 0 (queryCacheKey 5 (some ["a"]))).1 = some [("a", 7)] := by
    unfold CacheHandler.get
    rw [show lookupKV (queryCacheKey 5 (some ["a"])) pmHit.cache.cache
        = some ⟨[("a", 7)], 0, some 300, 0, 8⟩ from rfl]
    dsimp only
    rw [hexp, if_neg Bool.false_ne_true]
  exact C3_cache_hit_short_circuit (fun _ => 8) pmHit 0 5 (some ["a"]) [("a", 7)] hget
    (by decide)

/-- The plugin, manager and first query of the C3 counterexample: one
valid signal "a" whose data lookup always returns null, so the first
query caches the empty map. -/
def siA : SignalInfo :=
  { name := "a", signal_type := .temporal, units := "u"
    description := "probe signal", value_range := none
    sampling_rate := none, coordinate_system := none }

def pC3 : PyPlugin ℚ :=
  { name := "P", load_ok := true, signals := [("a", siA)]
    get_data := fun _ _ => none }

def pmC3 : PlotManager ℚ := ((PlotManager.init ℚ).register_plugin 0 pC3).2

def rC3 : QueryResult ℚ := request_data_update (fun _ => 8) pmC3 0 5 (some ["a"])

/-- C3 counterexample: after the first query cached the empty map, the
second identical query finds the key present and unexpired (the probe
returns the cached empty map), yet a plugin call for "a" is still
dispatched: the lookup success alone does not short-circuit. -/
theorem C3_counterexample :
    (rC3.pm.cache.get 0 (queryCacheKey 5 (some ["a"]))).1 = some [] ∧
      (request_data_update (fun _ => 8) rC3.pm 0 5 (some ["a"])).dispatched = ["a"] := by
  have hexp : pyExpired (⟨[], 0, some 300, 0, 8⟩ : CacheEntry (List (String × ℚ))) 0
      = false := by
    simp only [pyExpired]
    rw [decide_eq_false_iff_not]
    norm_num
  have hlk : lookupKV (queryCacheKey 5 (some ["a"])) rC3.pm.cache.cache
      = some ⟨[], 0, some 300, 0, 8⟩ := by rfl
  have hget : (rC3.pm.cache.get 0 (queryCacheKey 5 (some ["a"]))).1 = some [] := by
    unfold CacheHandler.get
    rw [hlk]
    dsimp only
    rw [hexp, if_neg Bool.false_ne_true]
  refine ⟨hget, ?_⟩
  unfold request_data_update
  dsimp only
  rw [hget]
  dsimp only
  rw [if_pos (show ([] : List (String × ℚ)).isEmpty = true from rfl)]
  rfl

/-! ### Claim C7: re-registration fully replaces a plugin's signal set -/

theorem lookupKV_insertKV_self {A : Type} {k : K} {v : A} {l : List (K × A)} :
    lookupKV k (insertKV k v l) = some v := by
  induction l with
  | nil => simp [insertKV, lookupKV]
  | cons hd tl ih =>
    obtain ⟨k₁, a⟩ := hd
    by_cases hk : k₁ = k
    · simp [insertKV, hk, lookupKV]
    · simp [insertKV, hk, lookupKV, ih]

theorem lookupKV_insertKV_ne {A : Type} {k k₁ : K} {v : A} {l : List (K × A)}
    (h : k₁ ≠ k) : lookupKV k (insertKV k₁ v l) = lookupKV k l := by
  induction l with
  | nil =>
    simp only [insertKV, lookupKV]
    rw [if_neg h]
  | cons hd tl ih =>
    obtain ⟨k₂, a⟩ := hd
    simp only [insertKV]
    by_cases hk : k₂ = k₁
    · rw [if_pos hk]
      simp only [lookupKV]
      rw [if_neg h, if_neg (by rw [hk]; exact h)]
    · rw [if_neg hk]
      simp only [lookupKV]
      by_cases hk₂ : k₂ = k
      · rw [if_pos hk₂, if_pos hk₂]
      · rw [if_neg hk₂, if_neg hk₂]
        exact ih

theorem mem_addIfAbsent {A : Type} [DecidableEq A] {x y : A} {l : List A} :
    x ∈ addIfAbsent y l ↔ x = y ∨ x ∈ l := by
  unfold addIfAbsent
  by_cases h : y ∈ l
  · rw [if_pos h]
    constructor
    · exact Or.inr
    · rintro (he | hm)
      · rw [he]
        exact h
      · exact hm
  · rw [if_neg h]
    rw [List.mem_append, List.mem_singleton]
    exact or_comm

theorem lookupKV_eraseFirst_of_none {A : Type} {s k : K} {m : List (K × A)}
    (h : lookupKV s m = none) : lookupKV s (eraseFirst k m) = none := by
  rw [lookupKV_eq_none_iff] at h ⊢
  intro hmem
  exact h ((List.Sublist.map Prod.fst (eraseFirst_sublist k m)).subset hmem)

theorem lookupKV_eraseFold_of_none {A : Type} {s : K} {owned : List K}
    {m : List (K × A)} (h : lookupKV s m = none) :
    lookupKV s (owned.foldl (fun acc k => eraseFirst k acc) m) = none := by
  induction owned generalizing m with
  | nil => exact h
  | cons k ks ih =>
    rw [List.foldl_cons]
    exact ih (lookupKV_eraseFirst_of_none h)

theorem lookupKV_eraseFold_of_mem {A : Type} {s : K} {owned : List K}
    {m : List (K × A)} (hmem : s ∈ owned) (hnd : NodupKeys m) :
    lookupKV s (owned.foldl (fun acc k => eraseFirst k acc) m) = none := by
  induction owned generalizing m with
  | nil => exact absurd hmem (List.not_mem_nil s)
  | cons k ks ih =>
    rw [List.foldl_cons]
    rcases List.mem_cons.mp hmem with he | hm
    · subst he
      exact lookupKV_eraseFold_of_none
        (lookupKV_eq_none_iff.mpr (not_mem_keys_eraseFirst hnd))
    · exact ih hm (nodupKeys_eraseFirst hnd)

/-- Pure image of the registration loop on the plugin's owned-name set:
the names of the valid signals added to the accumulator. -/
def validNamesAcc (sigs : List (String × SignalInfo)) (acc : List String) :
    List String :=
  sigs.foldl (fun a sns =>
    if SignalValidator.validate_signal_info sns.2 then addIfAbsent sns.1 a else a) acc

theorem mem_validNamesAcc {sigs : List (String × SignalInfo)} {acc : List String}
    {s : String} :
    s ∈ validNamesAcc sigs acc ↔
      s ∈ acc ∨ ∃ si, (s, si) ∈ sigs ∧ SignalValidator.validate_signal_info si = true := by
  induction sigs generalizing acc with
  | nil => simp [validNamesAcc]
  | cons hd tl ih =>
    obtain ⟨n, si⟩ := hd
    rw [validNamesAcc, List.foldl_cons]
    rw [show (tl.foldl (fun a sns =>
        if SignalValidator.validate_signal_info sns.2 then addIfAbsent sns.1 a else a)
        (if SignalValidator.validate_signal_info si then addIfAbsent n acc else acc))
      = validNamesAcc tl
        (if SignalValidator.validate_signal_info si then addIfAbsent n acc else acc) from rfl]
    rw [ih]
    by_cases hv : SignalValidator.validate_signal_info si = true
    · rw [if_pos hv, mem_addIfAbsent]
      constructor
      · rintro ((he | ha) | ⟨si₂, hmem, hval⟩)
        · exact Or.inr ⟨si, by rw [he]; exact List.mem_cons_self _ _, hv⟩
        · exact Or.inl ha
        · exact Or.inr ⟨si₂, List.mem_cons_of_mem _ hmem, hval⟩
      · rintro (ha | ⟨si₂, hmem, hval⟩)
        · exact Or.inl (Or.inr ha)
        · rcases List.mem_cons.mp hmem with he | hm
          · exact Or.inl (Or.inl (congrArg Prod.fst he))
          · exact Or.inr ⟨si₂, hm, hval⟩
    · rw [if_neg hv]
      constructor
      · rintro (ha | ⟨si₂, hmem, hval⟩)
        · exact Or.inl ha
        · exact Or.inr ⟨si₂, List.mem_cons_of_mem _ hmem, hval⟩
      · rintro (ha | ⟨si₂, hmem, hval⟩)
        · exact Or.inl ha
        · rcases List.mem_cons.mp hmem with he | hm
          · exfalso
            have hn : si₂ = si := congrArg Prod.snd he
            rw [hn] at hval
            exact hv hval
          · exact Or.inr ⟨si₂, hm, hval⟩

theorem registerSignalsLoop_plugin_signals {pname : String}
    {sigs : List (String × SignalInfo)} {pm : PlotManager V} {acc : List String}
    (h : lookupKV pname pm.plugin_signals = some acc) :
    lookupKV pname (registerSignalsLoop pname sigs pm).plugin_signals
      = some (validNamesAcc sigs acc) := by
  induction sigs generalizing pm acc with
  | nil => exact h
  | cons hd tl ih =>
    obtain ⟨n, si⟩ := hd
    rw [registerSignalsLoop, List.foldl_cons]
    rw [validNamesAcc, List.foldl_cons]
    by_cases hv : SignalValidator.validate_signal_info si = true
    · rw [if_pos hv, if_pos hv]
      have h₂ : lookupKV pname
          ({ pm with
              signals := insertKV n si pm.signals
              plugin_signals := insertKV pname
                (addIfAbsent n ((lookupKV pname pm.plugin_signals).getD []))
                pm.plugin_signals } : PlotManager V).plugin_signals
          = some (addIfAbsent n acc) := by
        dsimp only
        rw [h]
        exact lookupKV_insertKV_self
      exact ih h₂
    · rw [if_neg hv, if_neg hv]
      exact ih h

theorem registerSignalsLoop_signals_none {pname s : String}
    {sigs : List (String × SignalInfo)} {pm : PlotManager V}
    (h : lookupKV s pm.signals = none)
    (hns : ∀ si, (s, si) ∈ sigs → SignalValidator.validate_signal_info si = false) :
    lookupKV s (registerSignalsLoop pname sigs pm).signals = none := by
  induction sigs generalizing pm with
  | nil => exact h
  | cons hd tl ih =>
    obtain ⟨n, si⟩ := hd
    rw [registerSignalsLoop, List.foldl_cons]
    by_cases hv : SignalValidator.validate_signal_info si = true
    · rw [if_pos hv]
      have hn : n ≠ s := by
        intro he
        subst he
        have hfalse := hns si (List.mem_cons_self _ _)
        rw [hv] at hfalse
        exact absurd hfalse (by decide)
      have h₂ : lookupKV s
          ({ pm with
              signals := insertKV n si pm.signals
              plugin_signals := insertKV pname
                (addIfAbsent n ((lookupKV pname pm.plugin_signals).getD []))
                pm.plugin_signals } : PlotManager V).signals = none := by
        dsimp only
        rw [lookupKV_insertKV_ne hn]
        exact h
      exact ih h₂ (fun si₂ hmem => hns si₂ (List.mem_cons_of_mem _ hmem))
    · rw [if_neg hv]
      exact ih h (fun si₂ hmem => hns si₂ (List.mem_cons_of_mem _ hmem))

/-- C7: registering a plugin whose name is already taken first fully
unregisters the old one; afterwards a signal owned only by the old
registration and not validly re-declared by the new plugin is absent
from the signal index, and the name maps exactly to the new plugin's
valid signal names. -/
theorem C7_reregistration_replaces_signals (pm : PlotManager V) (now : ℚ)
    (p q : PyPlugin V) (s : String)
    (hold : lookupKV p.name pm.plugins = some q)
    (hload : p.load_ok = true)
    (hnds : NodupKeys pm.signals)
    (howned : s ∈ (lookupKV p.name pm.plugin_signals).getD [])
    (honly : ∀ pn sigs, pn ≠ p.name → (pn, sigs) ∈ pm.plugin_signals → s ∉ sigs)
    (hnotnew : ∀ si, (s, si) ∈ p.signals → SignalValidator.validate_signal_info si = false) :
    (pm.register_plugin now p).1 = true ∧
      lookupKV s (pm.register_plugin now p).2.signals = none ∧
      ∃ owned, lookupKV p.name (pm.register_plugin now p).2.plugin_signals = some owned ∧
        ∀ s₁, s₁ ∈ owned ↔
          ∃ si, (s₁, si) ∈ p.signals ∧ SignalValidator.validate_signal_info si = true := by
  unfold PlotManager.register_plugin PlotManager.unregister_plugin
  dsimp only
  rw [hold]
  simp only [Option.isSome_some, if_true]
  rw [hload]
  rw [if_neg (by decide : ¬ (true = false))]
  dsimp only
  refine ⟨rfl, ?_, ?_⟩
  · apply registerSignalsLoop_signals_none
    · dsimp only
      exact lookupKV_eraseFold_of_mem howned hnds
    · exact hnotnew
  · refine ⟨validNamesAcc p.signals [], ?_, ?_⟩
    · apply registerSignalsLoop_plugin_signals
      dsimp only
      exact lookupKV_insertKV_self
    · intro s₁
      rw [mem_validNamesAcc]
      simp

/-- Concrete re-registration scenario for the C7 witness: plugin "P"
first owns signal "a", then is re-registered owning only "b". -/
def pOld : PyPlugin ℚ :=
  { name := "P", load_ok := true, signals := [("a", siA)]
    get_data := fun _ _ => none }

def siB : SignalInfo :=
  { name := "b", signal_type := .temporal, units := "u"
    description := "replacement signal", value_range := none
    sampling_rate := none, coordinate_system := none }

def pNew : PyPlugin ℚ :=
  { name := "P", load_ok := true, signals := [("b", siB)]
    get_data := fun _ _ => none }

def pmC7 : PlotManager ℚ := ((PlotManager.init ℚ).register_plugin 0 pOld).2

theorem C7_reregistration_replaces_signals_witness :
    (pmC7.register_plugin 1 pNew).1 = true ∧
      lookupKV "a" (pmC7.register_plugin 1 pNew).2.signals = none := by
  have h := C7_reregistration_replaces_signals pmC7 1 pNew pOld "a"
    rfl rfl (by decide) (by decide)
    (fun pn sigs hne hmem =>
      absurd (congrArg Prod.fst (List.mem_singleton.mp hmem)) hne)
    (fun si hmem =>
      have he : ("a" : String) = "b" := congrArg Prod.fst (List.mem_singleton.mp hmem)
      absurd he (by decide))
  exact ⟨h.1, h.2.1⟩

end DebugPlayer
